import Mathlib

set_option maxHeartbeats 1000000

/-!
Verification of the receding-horizon controller core of safe-mpc
(src/safe_mpc/abstract.py) against its natural-language specification.

Arrays are modelled as total functions from natural-number indices: a
numpy array of length m is a function whose live entries sit at the
indices below m, and np.roll / element assignment become index
arithmetic and Function.update.  External collaborators (the acados OCP
solver and integrator, the loaded network weights, the configuration
values) enter the model as oracle arguments.
-/

namespace SafeMpc

/-- np.roll(v, -1, axis=0) over an array of length m: the entry at
index i + 1 (mod m) moves to index i. -/
def roll1 {α : Type} (m : ℕ) (v : ℕ → α) : ℕ → α :=
  fun i => v ((i + 1) % m)

/-- arr[-1] = np.copy(arr[-2]) on an array of length m: the value at
index m - 2 is written into index m - 1. -/
def dupLast {α : Type} (m : ℕ) (v : ℕ → α) : ℕ → α :=
  Function.update v (m - 1) (v (m - 2))

/-- What the external OCP solver reports after one solve call: an
integer status together with the per-stage states and controls that
ocp_solver.get(i, "x") and ocp_solver.get(i, "u") return. -/
structure SolverResult (S C : Type) where
  status : ℤ
  sx : ℕ → S
  su : ℕ → C

/-- The mutable state of AbstractController touched by the control
loop: horizon N, guess trajectories (x_guess of live length N + 1,
u_guess of live length N), the temporary buffers filled by solve, the
failure counter, the last solver status, and the receding index r used
only by receding-horizon variants. -/
structure Ctrl (S C : Type) where
  N : ℕ
  x_guess : ℕ → S
  u_guess : ℕ → C
  x_temp : ℕ → S
  u_temp : ℕ → C
  fails : ℕ
  last_status : ℤ
  receding : Bool
  r : ℕ

/-- The copy loop in AbstractController.solve: for i in range(k) the
entry src i is written into the destination buffer at index i. -/
def copyLoop {α : Type} (dst src : ℕ → α) : ℕ → ℕ → α
  | 0 => dst
  | k + 1 => Function.update (copyLoop dst src k) k (src k)

/-- AbstractController.solve: the initial-state constraint and the
primal initialization are handed to the external solver, whose reply is
the SolverResult oracle; the stage values are copied into the temporary
buffers regardless of the status (for i in range(N) both buffers, then
x_temp[-1]), the status is recorded and returned. -/
def solve {S C : Type} (c : Ctrl S C) (res : SolverResult S C) : ℤ × Ctrl S C :=
  (res.status,
    { c with
      x_temp := Function.update (copyLoop c.x_temp res.sx c.N) c.N (res.sx c.N)
      u_temp := copyLoop c.u_temp res.su c.N
      last_status := res.status })

/-- AbstractController.provideControl: on fails > 0 return u_guess[0]
and left-shift the previous guess, otherwise return u_temp[0] and
left-shift the temporary solution; in both cases the last entry is then
overwritten with a copy of the one before it.  The returned Bool is the
constant False of the source. -/
def provideControl {S C : Type} (c : Ctrl S C) : C × Bool × Ctrl S C :=
  if 0 < c.fails then
    (c.u_guess 0, false,
      { c with
        x_guess := dupLast (c.N + 1) (roll1 (c.N + 1) c.x_guess)
        u_guess := dupLast c.N (roll1 c.N c.u_guess) })
  else
    (c.u_temp 0, false,
      { c with
        x_guess := dupLast (c.N + 1) (roll1 (c.N + 1) c.x_temp)
        u_guess := dupLast c.N (roll1 c.N c.u_temp) })

/-- Modelled from the spec: the per-tick driver that connects solve to
provideControl lives in the controller subclasses, which are not under
src/.  Per section 4.4 a nonzero status increments the failure counter
before provideControl is called, and per section 3 the counter is
monotone, so a zero status leaves it unchanged. -/
def step {S C : Type} (c : Ctrl S C) (res : SolverResult S C) : C × Bool × Ctrl S C :=
  let sc := solve c res
  provideControl (if sc.1 ≠ 0 then { sc.2 with fails := sc.2.fails + 1 } else sc.2)

/-- AbstractController.resetHorizon: sets the new horizon, updates the
receding index when the controller is a receding variant, and replaces
the temporary buffers by zero arrays of the new shapes (N + 1 rows and
N rows); the time-step and condensing updates happen inside the
external solver object. -/
def resetHorizon {S C : Type} [Zero S] [Zero C] (c : Ctrl S C) (n : ℕ) : Ctrl S C :=
  { c with
    N := n
    r := if c.receding then n else c.r
    x_temp := fun _ => 0
    u_temp := fun _ => 0 }

/-- A concrete controller state used to instantiate the guess-shift
theorems. -/
def ctrlA : Ctrl ℕ ℕ where
  N := 3
  x_guess := fun i => i + 10
  u_guess := fun i => i + 20
  x_temp := fun i => i + 30
  u_temp := fun i => i + 40
  fails := 0
  last_status := 0
  receding := false
  r := 3

/-- A concrete failing solver reply (status 7). -/
def resA : SolverResult ℕ ℕ where
  status := 7
  sx := fun i => i + 50
  su := fun i => i + 60

/-- A concrete controller state over scalar entries used to exhibit the
behaviour of resetHorizon. -/
def ctrlFive : Ctrl ℝ ℝ where
  N := 5
  x_guess := fun _ => 0
  u_guess := fun _ => 0
  x_temp := fun _ => 7
  u_temp := fun _ => 7
  fails := 0
  last_status := 0
  receding := false
  r := 5

/-- The activation choices offered by the nls dictionary of
AdamModel.setNNmodel. -/
inductive Act
  | relu
  | elu
  | tanh
  | gelu
  | silu
deriving DecidableEq

/-- The real function computed by each torch activation: ReLU, ELU,
Tanh, GELU with the tanh approximation, and SiLU. -/
noncomputable def actEval : Act → ℝ → ℝ
  | Act.relu => fun t => max 0 t
  | Act.elu => fun t => if t ≤ 0 then Real.exp t - 1 else t
  | Act.tanh => Real.tanh
  | Act.gelu => fun t =>
      0.5 * t * (1 + Real.tanh (Real.sqrt (2 / Real.pi) * (t + 0.044715 * t ^ 3)))
  | Act.silu => fun t => t / (1 + Real.exp (-t))

/-- The weights of the NeuralNetwork module: four Linear layers, the
last one with a single output row. -/
structure NNParams (nx hidden : ℕ) where
  w1 : Fin hidden → Fin nx → ℝ
  b1 : Fin hidden → ℝ
  w2 : Fin hidden → Fin hidden → ℝ
  b2 : Fin hidden → ℝ
  w3 : Fin hidden → Fin hidden → ℝ
  b3 : Fin hidden → ℝ
  w4 : Fin hidden → ℝ
  b4 : ℝ

/-- One Linear layer followed by the activation. -/
noncomputable def layer (act : Act) {a b : ℕ} (w : Fin b → Fin a → ℝ)
    (bias : Fin b → ℝ) (v : Fin a → ℝ) : Fin b → ℝ :=
  fun j => actEval act (∑ k, w j k * v k + bias j)

/-- NeuralNetwork.forward: the linear stack (Linear, activation, four
times) applied to the input, multiplied by ub. -/
noncomputable def forward {nx hidden : ℕ} (act : Act) (ub : ℝ)
    (p : NNParams nx hidden) (x : Fin nx → ℝ) : ℝ :=
  actEval act
    (∑ k, p.w4 k * layer act p.w3 p.b3 (layer act p.w2 p.b2 (layer act p.w1 p.b1 x)) k
      + p.b4) * ub

/-- The ub chosen by AdamModel.setNNmodel: max(x_max[nq:]) * sqrt(nq)
for the tanh activation and 1 otherwise; xMaxVel is the velocity part
of x_max, of length nq = m + 1. -/
noncomputable def nnUb (m : ℕ) (act : Act) (xMaxVel : Fin (m + 1) → ℝ) : ℝ :=
  if act = Act.tanh then
    (Finset.univ.sup' Finset.univ_nonempty xMaxVel) * Real.sqrt ((m : ℝ) + 1)
  else 1

/-- x_cp of AdamModel.setNNmodel: the state with eps added to its first
velocity component x[nq]. -/
def epsShift (m : ℕ) (eps : ℝ) (x : Fin ((m + 1) + (m + 1)) → ℝ) :
    Fin ((m + 1) + (m + 1)) → ℝ :=
  Function.update x (Fin.natAdd (m + 1) (0 : Fin (m + 1)))
    (x (Fin.natAdd (m + 1) (0 : Fin (m + 1))) + eps)

/-- vel_norm of AdamModel.setNNmodel: the Euclidean norm of the
velocity half of x_cp. -/
noncomputable def velNorm (m : ℕ) (eps : ℝ) (x : Fin ((m + 1) + (m + 1)) → ℝ) : ℝ :=
  Real.sqrt (∑ i : Fin (m + 1), epsShift m eps x (Fin.natAdd (m + 1) i) ^ 2)

/-- The network input built by AdamModel.setNNmodel: the normalized
position block (x_cp[:nq] - mean) / std appended with the velocity
direction x_cp[nq:] / vel_norm. -/
noncomputable def nnInput (m : ℕ) (mean std : Fin (m + 1) → ℝ) (eps : ℝ)
    (x : Fin ((m + 1) + (m + 1)) → ℝ) : Fin ((m + 1) + (m + 1)) → ℝ :=
  Fin.append
    (fun i => (epsShift m eps x (Fin.castAdd (m + 1) i) - mean i) / std i)
    (fun i => epsShift m eps x (Fin.natAdd (m + 1) i) / velNorm m eps x)

/-- The safety margin compiled by AdamModel.setNNmodel (the hidden
width of the constructed NeuralNetwork is 256):
h(x, alpha) = network(input(x)) * (100 - alpha) / 100 - vel_norm. -/
noncomputable def nnMargin (m : ℕ) (act : Act) (p : NNParams ((m + 1) + (m + 1)) 256)
    (mean std xMaxVel : Fin (m + 1) → ℝ) (eps : ℝ)
    (x : Fin ((m + 1) + (m + 1)) → ℝ) (alpha : ℝ) : ℝ :=
  forward act (nnUb m act xMaxVel) p (nnInput m mean std eps x) * (100 - alpha) / 100
    - velNorm m eps x

/-- All-zero network weights except for a bias of -1 on the output
neuron. -/
def pNegOut : NNParams ((0 + 1) + (0 + 1)) 256 where
  w1 := fun _ _ => 0
  b1 := fun _ => 0
  w2 := fun _ _ => 0
  b2 := fun _ => 0
  w3 := fun _ _ => 0
  b3 := fun _ => 0
  w4 := fun _ => 0
  b4 := -1

/-- All-zero normalization mean. -/
def meanZero : Fin (0 + 1) → ℝ := fun _ => 0

/-- All-one normalization std. -/
def stdOne : Fin (0 + 1) → ℝ := fun _ => 1

/-- Velocity bound 1 for the single joint. -/
def velOne : Fin (0 + 1) → ℝ := fun _ => 1

/-- A probe state with position 0 and velocity 1. -/
def xProbe : Fin ((0 + 1) + (0 + 1)) → ℝ := fun i => if (i : ℕ) = 0 then 0 else 1

/-- The NN-related slice of AdamModel: the attached margin function (or
None while unattached), and the alpha and tol_nn configuration values. -/
structure AdamModelNN (m : ℕ) where
  nn_func : Option ((Fin ((m + 1) + (m + 1)) → ℝ) → ℝ → ℝ)
  alpha : ℝ
  tol_nn : ℝ

/-- The NN attributes as AdamModel.__init__ leaves them: nn_func is
None. -/
def initNN (m : ℕ) (alpha tol_nn : ℝ) : AdamModelNN m :=
  ⟨none, alpha, tol_nn⟩

/-- AdamModel.setNNmodel: attaches nn_func, the compiled margin as a
function of the state and the margin parameter. -/
noncomputable def setNNmodel {m : ℕ} (md : AdamModelNN m) (act : Act)
    (p : NNParams ((m + 1) + (m + 1)) 256) (mean std xMaxVel : Fin (m + 1) → ℝ)
    (eps : ℝ) : AdamModelNN m :=
  { md with nn_func := some (fun x alpha => nnMargin m act p mean std xMaxVel eps x alpha) }

/-- AdamModel.checkSafeConstraints: evaluates nn_func(x, alpha) >=
-tol_nn.  A None nn_func is not callable, so the call raises instead of
producing a verdict; this is modelled by the none result. -/
def checkSafeConstraints {m : ℕ} (md : AdamModelNN m)
    (x : Fin ((m + 1) + (m + 1)) → ℝ) : Option Prop :=
  md.nn_func.map (fun f => f x md.alpha ≥ - md.tol_nn)

/-- The state rollout of SimDynamics.checkDynamicsConstraints:
x_sim[0] = x0 and x_sim[i+1] = simulate(x_sim[i], u[i]), where the
integrator supplied by acados is the oracle integ. -/
def rollout {X U : Type} (integ : X → U → X) (x0 : X) (u : ℕ → U) : ℕ → X
  | 0 => x0
  | i + 1 => integ (rollout integ x0 u i) (u i)

/-- np.linalg.norm of the difference of two (n + 1) x nx arrays: the
Frobenius norm. -/
noncomputable def devNorm (nx n : ℕ) (a b : ℕ → Fin nx → ℝ) : ℝ :=
  Real.sqrt (∑ i ∈ Finset.range (n + 1), ∑ j, (a i j - b i j) ^ 2)

/-- SimDynamics.checkDynamicsConstraints: re-simulate the control
sequence of length n from x[0] and accept iff the deviation norm is
below tol_dyn * sqrt(n + 1). -/
def checkDynamicsConstraints {nx nu : ℕ}
    (integ : (Fin nx → ℝ) → (Fin nu → ℝ) → (Fin nx → ℝ)) (tol_dyn : ℝ)
    (n : ℕ) (x : ℕ → Fin nx → ℝ) (u : ℕ → Fin nu → ℝ) : Prop :=
  devNorm nx n x (rollout integ (x 0) u) < tol_dyn * Real.sqrt ((n : ℝ) + 1)

/-- The tag of an obstacle descriptor. -/
inductive ObsKind
  | floor
  | ball
deriving DecidableEq

/-- An obstacle descriptor: kind, bounds and (for balls) a center. -/
structure Obstacle where
  kind : ObsKind
  lb : ℝ
  ub : ℝ
  position : Fin 3 → ℝ

/-- The loop of AbstractController.checkCollision over the obstacle
list: a floor obstacle fails when the monitored height plus tol_obs is
below the lower bound, a ball obstacle when the squared distance to the
center plus tol_obs is; the first failure returns False. -/
def collisionFreeList (tol_obs : ℝ) (t_glob : Fin 3 → ℝ) : List Obstacle → Prop
  | [] => True
  | o :: rest =>
    match o.kind with
    | ObsKind.floor =>
        ¬ (t_glob 2 + tol_obs < o.lb) ∧ collisionFreeList tol_obs t_glob rest
    | ObsKind.ball =>
        ¬ ((∑ j, (t_glob j - o.position j) ^ 2) + tol_obs < o.lb) ∧
          collisionFreeList tol_obs t_glob rest

/-- AbstractController.checkCollision: True whenever there is no
obstacle list or the obstacle flag is off, otherwise the loop verdict
at the monitored end-effector point ee(x). -/
def checkCollision {X : Type} (obstacles : Option (List Obstacle)) (obs_flag : Bool)
    (tol_obs : ℝ) (ee : X → Fin 3 → ℝ) (x : X) : Prop :=
  match obstacles, obs_flag with
  | some l, true => collisionFreeList tol_obs (ee x) l
  | _, _ => True

/-- The floor obstacle of the spec scenario, bounds (0.05, 1e6). -/
noncomputable def floorObs : Obstacle where
  kind := ObsKind.floor
  lb := 5 / 100
  ub := 1000000
  position := fun _ => 0

/-- A monitored-point oracle over Bool states: height 3/100 at true and
10/100 at false. -/
noncomputable def eeProbe : Bool → Fin 3 → ℝ :=
  fun b j => if (j : ℕ) = 2 then (if b then 3 / 100 else 10 / 100) else 0

/-- A heap of numpy arrays: cell contents plus the next fresh address.
Mutation of one array is a write at its address, and np.copy is an
allocation at a fresh address. -/
structure Heap (α : Type) where
  mem : ℕ → α
  next : ℕ

/-- Allocate a fresh cell holding v and return its address. -/
def Heap.alloc {α : Type} (h : Heap α) (v : α) : ℕ × Heap α :=
  (h.next, ⟨Function.update h.mem h.next v, h.next + 1⟩)

/-- In-place mutation of the array at address i. -/
def Heap.write {α : Type} (h : Heap α) (i : ℕ) (v : α) : Heap α :=
  ⟨Function.update h.mem i v, h.next⟩

/-- The controller fields x_guess and u_guess as array references. -/
structure GuessRef where
  xg : ℕ
  ug : ℕ

/-- The references of a controller point at allocated cells. -/
def GuessRef.wf {α : Type} (c : GuessRef) (h : Heap α) : Prop :=
  c.xg < h.next ∧ c.ug < h.next

/-- AbstractController.getGuess: returns np.copy(x_guess) and
np.copy(u_guess), i.e. two freshly allocated cells holding the current
guess contents. -/
def getGuess {α : Type} (c : GuessRef) (h : Heap α) : (ℕ × ℕ) × Heap α :=
  let a1 := h.alloc (h.mem c.xg)
  let a2 := a1.2.alloc (a1.2.mem c.ug)
  ((a1.1, a2.1), a2.2)

/-- AbstractController.setGuess: stores the caller arrays themselves
(reference assignment, no copy). -/
def setGuess (xid uid : ℕ) : GuessRef :=
  ⟨xid, uid⟩

/-- The heap after mutating both arrays returned by getGuess. -/
def mutatedHeap {α : Type} (c : GuessRef) (h : Heap α) (v1 v2 : α) : Heap α :=
  ((getGuess c h).2.write (getGuess c h).1.1 v1).write (getGuess c h).1.2 v2

/-- Concrete guess references for the getGuess instance. -/
def refsW : GuessRef :=
  ⟨0, 1⟩

/-- A concrete heap with two allocated cells. -/
def heapW : Heap ℕ :=
  ⟨fun i => i + 100, 2⟩

/-- A concrete integrator oracle that keeps the state unchanged. -/
def integId : (Fin 1 → ℝ) → (Fin 1 → ℝ) → (Fin 1 → ℝ) :=
  fun x _ => x

/-- The all-zero trajectory. -/
def zeroTraj : ℕ → Fin 1 → ℝ :=
  fun _ _ => 0

theorem dupLast_roll1_lt {α : Type} (N : ℕ) (v : ℕ → α) (i : ℕ) (h : i < N) :
    dupLast (N + 1) (roll1 (N + 1) v) i = v (i + 1) := by
  unfold dupLast roll1
  rw [Function.update_apply, if_neg (by omega), Nat.mod_eq_of_lt (by omega)]

theorem dupLast_roll1_last {α : Type} (N : ℕ) (v : ℕ → α) :
    dupLast (N + 1) (roll1 (N + 1) v) N = v N := by
  unfold dupLast roll1
  rw [Function.update_apply, if_pos (by omega : N = N + 1 - 1)]
  rcases Nat.eq_zero_or_pos N with h0 | h0
  · subst h0; norm_num
  · have h1 : N + 1 - 2 + 1 = N := by omega
    rw [h1, Nat.mod_eq_of_lt (by omega)]

theorem dupLast_roll1_u_lt {α : Type} (N : ℕ) (u : ℕ → α) (i : ℕ) (h : i + 1 < N) :
    dupLast N (roll1 N u) i = u (i + 1) := by
  unfold dupLast roll1
  rw [Function.update_apply, if_neg (by omega), Nat.mod_eq_of_lt (by omega)]

theorem dupLast_roll1_u_last {α : Type} (N : ℕ) (u : ℕ → α) (h : 1 ≤ N) :
    dupLast N (roll1 N u) (N - 1) = u (N - 1) := by
  unfold dupLast roll1
  rw [Function.update_apply, if_pos rfl]
  rcases Nat.lt_or_ge N 2 with h2 | h2
  · have hN : N = 1 := by omega
    subst hN; norm_num
  · have h1 : N - 2 + 1 = N - 1 := by omega
    rw [h1, Nat.mod_eq_of_lt (by omega)]

theorem copyLoop_lt {α : Type} (dst src : ℕ → α) (k i : ℕ) (h : i < k) :
    copyLoop dst src k i = src i := by
  induction k with
  | zero => omega
  | succ k ih =>
    by_cases hik : i = k
    · subst hik
      simp [copyLoop]
    · have hlt : i < k := by omega
      simp [copyLoop, Function.update_apply, hik, ih hlt]

/-- C4: for every solve call, whatever status the solver returns, all
N + 1 stage states and N stage controls it reports are copied into the
temporary buffers x_temp and u_temp, and the integer status is handed
back to the caller. -/
theorem solve_copies_whole_trajectory {S C : Type} (c : Ctrl S C) (res : SolverResult S C) :
    (∀ i, i ≤ c.N → (solve c res).2.x_temp i = res.sx i) ∧
    (∀ i, i < c.N → (solve c res).2.u_temp i = res.su i) ∧
    (solve c res).1 = res.status := by
  refine ⟨fun i hi => ?_, fun i hi => copyLoop_lt _ _ _ _ hi, rfl⟩
  show Function.update (copyLoop c.x_temp res.sx c.N) c.N (res.sx c.N) i = res.sx i
  rcases Nat.lt_or_ge i c.N with h | h
  · rw [Function.update_apply, if_neg (by omega), copyLoop_lt _ _ _ _ h]
  · have hi' : i = c.N := by omega
    subst hi'
    rw [Function.update_same]

/-- Witness for C4 at a concrete controller and a failing solver reply. -/
theorem solve_copies_whole_trajectory_inst :
    (solve ctrlA resA).2.x_temp 3 = resA.sx 3 ∧
      (solve ctrlA resA).2.u_temp 0 = resA.su 0 ∧
      (solve ctrlA resA).1 = resA.status :=
  ⟨(solve_copies_whole_trajectory ctrlA resA).1 3 (by decide),
   (solve_copies_whole_trajectory ctrlA resA).2.1 0 (by decide),
   (solve_copies_whole_trajectory ctrlA resA).2.2⟩

/-- C1: when the solver returns a nonzero status, the tick increments
the failure counter and the post-tick guess is the pure left-shift
(with last-stage duplication) of the pre-tick x_guess / u_guess; the
right-hand sides mention only the pre-tick guess, so the outcome is
independent of the temporary buffers, and consequently the solved
trajectory is adopted only in the status-zero branch. -/
theorem step_failure_nonadoption {S C : Type} (c : Ctrl S C) (res : SolverResult S C)
    (hst : res.status ≠ 0) (hN : 1 ≤ c.N) :
    (step c res).2.2.fails = c.fails + 1 ∧
    (∀ i, i < c.N → (step c res).2.2.x_guess i = c.x_guess (i + 1)) ∧
    (step c res).2.2.x_guess c.N = c.x_guess c.N ∧
    (∀ i, i + 1 < c.N → (step c res).2.2.u_guess i = c.u_guess (i + 1)) ∧
    (step c res).2.2.u_guess (c.N - 1) = c.u_guess (c.N - 1) := by
  have key : (step c res).2.2 =
      { c with
        x_temp := Function.update (copyLoop c.x_temp res.sx c.N) c.N (res.sx c.N)
        u_temp := copyLoop c.u_temp res.su c.N
        last_status := res.status
        fails := c.fails + 1
        x_guess := dupLast (c.N + 1) (roll1 (c.N + 1) c.x_guess)
        u_guess := dupLast c.N (roll1 c.N c.u_guess) } := by
    unfold step solve provideControl
    simp only [hst, ne_eq, not_false_eq_true, if_true, if_pos (Nat.succ_pos c.fails)]
  rw [key]
  exact ⟨rfl, fun i hi => dupLast_roll1_lt c.N c.x_guess i hi,
    dupLast_roll1_last c.N c.x_guess,
    fun i hi => dupLast_roll1_u_lt c.N c.u_guess i hi,
    dupLast_roll1_u_last c.N c.u_guess hN⟩

/-- Witness for C1: a failing tick (status 7) on the concrete
controller. -/
theorem step_failure_nonadoption_inst :
    (step ctrlA resA).2.2.fails = ctrlA.fails + 1 ∧
      (step ctrlA resA).2.2.x_guess 0 = ctrlA.x_guess 1 ∧
      (step ctrlA resA).2.2.x_guess 3 = ctrlA.x_guess 3 ∧
      (step ctrlA resA).2.2.u_guess 0 = ctrlA.u_guess 1 ∧
      (step ctrlA resA).2.2.u_guess 2 = ctrlA.u_guess 2 :=
  ⟨(step_failure_nonadoption ctrlA resA (by decide) (by decide)).1,
   (step_failure_nonadoption ctrlA resA (by decide) (by decide)).2.1 0 (by decide),
   (step_failure_nonadoption ctrlA resA (by decide) (by decide)).2.2.1,
   (step_failure_nonadoption ctrlA resA (by decide) (by decide)).2.2.2.1 0 (by decide),
   (step_failure_nonadoption ctrlA resA (by decide) (by decide)).2.2.2.2⟩

theorem shift_pair_spec {S C : Type} (N : ℕ) (hN : 2 ≤ N) (sx : ℕ → S) (su : ℕ → C) :
    dupLast (N + 1) (roll1 (N + 1) sx) N = dupLast (N + 1) (roll1 (N + 1) sx) (N - 1) ∧
    dupLast N (roll1 N su) (N - 1) = dupLast N (roll1 N su) (N - 2) ∧
    ∀ i, i < N - 1 → dupLast (N + 1) (roll1 (N + 1) sx) i = sx (i + 1) ∧
      dupLast N (roll1 N su) i = su (i + 1) := by
  refine ⟨?_, ?_, fun i hi => ⟨dupLast_roll1_lt N sx i (by omega),
    dupLast_roll1_u_lt N su i (by omega)⟩⟩
  · rw [dupLast_roll1_last, dupLast_roll1_lt N sx (N - 1) (by omega)]
    congr 1
    omega
  · rw [dupLast_roll1_u_last N su (by omega), dupLast_roll1_u_lt N su (N - 2) (by omega)]
    congr 1
    omega

/-- C2: after any provideControl call the last two entries of the state
guess coincide, the last two entries of the control guess coincide, and
at every index i < N - 1 the new guess equals the adopted (pre-shift)
trajectory of that tick at index i + 1. -/
theorem provideControl_shift_invariant {S C : Type} (c : Ctrl S C) (hN : 2 ≤ c.N) :
    (provideControl c).2.2.x_guess c.N = (provideControl c).2.2.x_guess (c.N - 1) ∧
    (provideControl c).2.2.u_guess (c.N - 1) = (provideControl c).2.2.u_guess (c.N - 2) ∧
    (∀ i, i < c.N - 1 →
      (provideControl c).2.2.x_guess i =
        (if 0 < c.fails then c.x_guess else c.x_temp) (i + 1) ∧
      (provideControl c).2.2.u_guess i =
        (if 0 < c.fails then c.u_guess else c.u_temp) (i + 1)) := by
  by_cases hf : 0 < c.fails
  · have hpc : (provideControl c).2.2 =
        { c with
          x_guess := dupLast (c.N + 1) (roll1 (c.N + 1) c.x_guess)
          u_guess := dupLast c.N (roll1 c.N c.u_guess) } := by
      unfold provideControl
      rw [if_pos hf]
    rw [hpc]
    simp only [if_pos hf]
    exact shift_pair_spec c.N hN c.x_guess c.u_guess
  · have hpc : (provideControl c).2.2 =
        { c with
          x_guess := dupLast (c.N + 1) (roll1 (c.N + 1) c.x_temp)
          u_guess := dupLast c.N (roll1 c.N c.u_temp) } := by
      unfold provideControl
      rw [if_neg hf]
    rw [hpc]
    simp only [if_neg hf]
    exact shift_pair_spec c.N hN c.x_temp c.u_temp

/-- Witness for C2 on the concrete controller, whose zero failure
counter selects the temporary trajectory as shift source. -/
theorem provideControl_shift_invariant_inst :
    (provideControl ctrlA).2.2.x_guess 3 = (provideControl ctrlA).2.2.x_guess 2 ∧
      (provideControl ctrlA).2.2.u_guess 2 = (provideControl ctrlA).2.2.u_guess 1 ∧
      (provideControl ctrlA).2.2.x_guess 0 = ctrlA.x_temp 1 ∧
      (provideControl ctrlA).2.2.u_guess 0 = ctrlA.u_temp 1 :=
  ⟨(provideControl_shift_invariant ctrlA (by decide)).1,
   (provideControl_shift_invariant ctrlA (by decide)).2.1,
   ((provideControl_shift_invariant ctrlA (by decide)).2.2 0 (by decide)).1,
   ((provideControl_shift_invariant ctrlA (by decide)).2.2 0 (by decide)).2⟩

/-- C3: provideControl always returns stage 0 of the pre-shift
trajectory of the tick: u_guess[0] in the failure branch and u_temp[0]
in the success branch, so a control action exists in either case. -/
theorem provideControl_first_stage {S C : Type} (c : Ctrl S C) :
    (provideControl c).1 = if 0 < c.fails then c.u_guess 0 else c.u_temp 0 := by
  by_cases hf : 0 < c.fails
  · unfold provideControl
    rw [if_pos hf, if_pos hf]
  · unfold provideControl
    rw [if_neg hf, if_neg hf]

/-- C5 counterexample: resetHorizon with N_new = 0 < 1 is not rejected;
it mutates the horizon length and the temporary buffer of the concrete
controller. -/
theorem resetHorizon_mutates_on_zero :
    (0 : ℕ) < 1 ∧ (resetHorizon ctrlFive 0).N ≠ ctrlFive.N ∧
      (resetHorizon ctrlFive 0).x_temp 0 ≠ ctrlFive.x_temp 0 := by
  refine ⟨by norm_num, ?_, ?_⟩
  · show (0 : ℕ) ≠ 5
    norm_num
  · show (0 : ℝ) ≠ 7
    norm_num

/-- C5 amended: resetHorizon performs no precondition check; for every
N_new, including N_new < 1, it sets N to N_new, updates the receding
index when applicable, and reallocates the temporary buffers as zero
arrays, leaving guesses and the failure counter untouched. -/
theorem resetHorizon_unconditional {S C : Type} [Zero S] [Zero C] (c : Ctrl S C) (n : ℕ) :
    (resetHorizon c n).N = n ∧
    (∀ i, (resetHorizon c n).x_temp i = 0) ∧
    (∀ i, (resetHorizon c n).u_temp i = 0) ∧
    (resetHorizon c n).x_guess = c.x_guess ∧
    (resetHorizon c n).u_guess = c.u_guess ∧
    (resetHorizon c n).fails = c.fails ∧
    (resetHorizon c n).r = (if c.receding then n else c.r) :=
  ⟨rfl, fun _ => rfl, fun _ => rfl, rfl, rfl, rfl, rfl⟩

theorem tanh_one_pos : 0 < Real.tanh 1 := by
  rw [Real.tanh_eq_sinh_div_cosh]
  exact div_pos (Real.sinh_pos_iff.mpr one_pos) (Real.cosh_pos 1)

theorem epsShift_probe : epsShift 0 0 xProbe = xProbe := by
  unfold epsShift
  rw [add_zero, Function.update_eq_self]

theorem velNorm_probe : velNorm 0 0 xProbe = 1 := by
  unfold velNorm
  rw [epsShift_probe]
  have h1 : (∑ i : Fin (0 + 1), xProbe (Fin.natAdd (0 + 1) i) ^ 2) = 1 := by
    rw [Fin.sum_univ_one]
    simp [xProbe, Fin.natAdd]
  rw [h1, Real.sqrt_one]

theorem nnUb_velOne : nnUb 0 Act.tanh velOne = 1 := by
  unfold nnUb
  rw [if_pos rfl]
  have h1 : Finset.univ.sup' Finset.univ_nonempty velOne = 1 := by
    simp [velOne]
  rw [h1]
  norm_num

theorem forward_probe (ub : ℝ) (s : Fin ((0 + 1) + (0 + 1)) → ℝ) :
    forward Act.tanh ub pNegOut s = Real.tanh (-1) * ub := by
  unfold forward
  have h1 : (∑ k, pNegOut.w4 k *
      layer Act.tanh pNegOut.w3 pNegOut.b3
        (layer Act.tanh pNegOut.w2 pNegOut.b2 (layer Act.tanh pNegOut.w1 pNegOut.b1 s)) k
      + pNegOut.b4) = -1 := by
    have hw4 : ∀ k, pNegOut.w4 k = (0 : ℝ) := fun _ => rfl
    have hb4 : pNegOut.b4 = (-1 : ℝ) := rfl
    simp [hw4, hb4]
  rw [h1]
  rfl

theorem nnMargin_probe (alpha : ℝ) :
    nnMargin 0 Act.tanh pNegOut meanZero stdOne velOne 0 xProbe alpha =
      Real.tanh (-1) * (100 - alpha) / 100 - 1 := by
  unfold nnMargin
  rw [forward_probe, nnUb_velOne, velNorm_probe, mul_one]

/-- C6 counterexample: with the tanh activation (offered by the nls
dictionary of setNNmodel) and loaded weights that bias the output
neuron to -1, the compiled margin at the probe state strictly increases
when alpha grows from 0 to 100, so increasing alpha can increase the
margin. -/
theorem nnMargin_not_monotone :
    ¬ (nnMargin 0 Act.tanh pNegOut meanZero stdOne velOne 0 xProbe 100 ≤
        nnMargin 0 Act.tanh pNegOut meanZero stdOne velOne 0 xProbe 0) := by
  rw [nnMargin_probe, nnMargin_probe, Real.tanh_neg]
  intro h
  have ht : 0 < Real.tanh 1 := tanh_one_pos
  nlinarith [ht, h]

/-- C6 amended: for the relu activation, whose final layer output is
nonnegative (and for which setNNmodel picks ub = 1), the compiled
margin is antitone in alpha on [0, 100]; with activations that can
output negative values the margin increases in alpha exactly where the
network output is negative, as the counterexample shows. -/
theorem nnMargin_relu_antitone (m : ℕ) (p : NNParams ((m + 1) + (m + 1)) 256)
    (mean std xMaxVel : Fin (m + 1) → ℝ) (eps : ℝ) (x : Fin ((m + 1) + (m + 1)) → ℝ)
    (a1 a2 : ℝ) (_h0 : 0 ≤ a1) (h12 : a1 ≤ a2) (_h100 : a2 ≤ 100) :
    nnMargin m Act.relu p mean std xMaxVel eps x a2 ≤
      nnMargin m Act.relu p mean std xMaxVel eps x a1 := by
  unfold nnMargin
  have hub : nnUb m Act.relu xMaxVel = 1 := by
    unfold nnUb
    rw [if_neg (by decide)]
  have hf : 0 ≤ forward Act.relu (nnUb m Act.relu xMaxVel) p (nnInput m mean std eps x) := by
    rw [hub]
    unfold forward
    rw [mul_one]
    exact le_max_left 0 _
  have h1 : forward Act.relu (nnUb m Act.relu xMaxVel) p (nnInput m mean std eps x) * (100 - a2) ≤
      forward Act.relu (nnUb m Act.relu xMaxVel) p (nnInput m mean std eps x) * (100 - a1) :=
    mul_le_mul_of_nonneg_left (by linarith) hf
  linarith [h1]

/-- Witness for the amended C6 at the relu activation with concrete
weights and state, alpha going from 0 to 100. -/
theorem nnMargin_relu_antitone_inst :
    (0 : ℝ) ≤ 0 ∧ (0 : ℝ) ≤ 100 ∧ (100 : ℝ) ≤ 100 ∧
      nnMargin 0 Act.relu pNegOut meanZero stdOne velOne 0 xProbe 100 ≤
        nnMargin 0 Act.relu pNegOut meanZero stdOne velOne 0 xProbe 0 :=
  ⟨le_refl 0, by norm_num, le_refl 100,
   nnMargin_relu_antitone 0 pNegOut meanZero stdOne velOne 0 xProbe 0 100
     (le_refl 0) (by norm_num) (le_refl 100)⟩

/-- C7: before setNNmodel the nn_func attribute is None, so
checkSafeConstraints yields no verdict at all (the call fails rather
than returning a meaningless boolean); once setNNmodel has attached the
filter, checkSafeConstraints(x) is exactly the proposition
margin(x, alpha) >= -tol_nn. -/
theorem checkSafeConstraints_gate (m : ℕ) (alpha tol : ℝ) (act : Act)
    (p : NNParams ((m + 1) + (m + 1)) 256) (mean std xMaxVel : Fin (m + 1) → ℝ)
    (eps : ℝ) (x : Fin ((m + 1) + (m + 1)) → ℝ) :
    checkSafeConstraints (initNN m alpha tol) x = none ∧
    checkSafeConstraints (setNNmodel (initNN m alpha tol) act p mean std xMaxVel eps) x =
      some (nnMargin m act p mean std xMaxVel eps x alpha ≥ - tol) :=
  ⟨rfl, rfl⟩

/-- C8: the rollout checker re-simulates the control sequence stage by
stage from x[0] through the integrator — any trajectory xsim obeying
xsim 0 = x 0 and xsim (i+1) = integ (xsim i) (u i) below n gives the
verdict — and the verdict is true iff the deviation norm between the
given and the simulated trajectory is below tol_dyn * sqrt(n + 1).  The
checker is a pure function of its inputs: it touches no guess. -/
theorem checkDynamicsConstraints_spec {nx nu : ℕ}
    (integ : (Fin nx → ℝ) → (Fin nu → ℝ) → (Fin nx → ℝ)) (tol_dyn : ℝ) (n : ℕ)
    (x : ℕ → Fin nx → ℝ) (u : ℕ → Fin nu → ℝ) (xsim : ℕ → Fin nx → ℝ)
    (h0 : xsim 0 = x 0) (hrec : ∀ i, i < n → xsim (i + 1) = integ (xsim i) (u i)) :
    checkDynamicsConstraints integ tol_dyn n x u ↔
      devNorm nx n x xsim < tol_dyn * Real.sqrt ((n : ℝ) + 1) := by
  have key : ∀ i, i ≤ n → xsim i = rollout integ (x 0) u i := by
    intro i
    induction i with
    | zero => intro _; exact h0
    | succ i ih =>
      intro hi
      rw [hrec i (by omega), ih (by omega)]
      rfl
  have hdev : devNorm nx n x (rollout integ (x 0) u) = devNorm nx n x xsim := by
    unfold devNorm
    congr 1
    apply Finset.sum_congr rfl
    intro i hi
    rw [key i (Nat.lt_succ_iff.mp (Finset.mem_range.mp hi))]
  unfold checkDynamicsConstraints
  rw [hdev]

/-- Witness for C8: the identity integrator on the zero trajectory. -/
theorem checkDynamicsConstraints_spec_inst :
    checkDynamicsConstraints integId 1 1 zeroTraj zeroTraj ↔
      devNorm 1 1 zeroTraj zeroTraj < 1 * Real.sqrt (((1 : ℕ) : ℝ) + 1) :=
  checkDynamicsConstraints_spec integId 1 1 zeroTraj zeroTraj zeroTraj rfl
    (fun _ _ => rfl)

theorem checkCollision_floor_red {X : Type} (ee : X → Fin 3 → ℝ) (tol : ℝ) (x : X) :
    checkCollision (some [floorObs]) true tol ee x ↔ ¬ (ee x 2 + tol < 5 / 100) := by
  show (¬ (ee x 2 + tol < 5 / 100) ∧ True) ↔ ¬ (ee x 2 + tol < 5 / 100)
  simp

/-- C9: with the single floor obstacle with bounds (0.05, 1e6) and the
obstacle flag on, and the configured tol_obs nonnegative and below
0.02, checkCollision rejects every state whose monitored point sits at
height 0.03 and accepts every state whose monitored point sits at
height 0.10. -/
theorem checkCollision_floor_scenario {X : Type} (ee : X → Fin 3 → ℝ) (tol : ℝ)
    (htol0 : 0 ≤ tol) (htol : tol < 2 / 100) (x y : X)
    (hx : ee x 2 = 3 / 100) (hy : ee y 2 = 10 / 100) :
    ¬ checkCollision (some [floorObs]) true tol ee x ∧
      checkCollision (some [floorObs]) true tol ee y := by
  constructor
  · rw [checkCollision_floor_red]
    intro hno
    apply hno
    rw [hx]
    linarith
  · rw [checkCollision_floor_red, hy]
    intro hcon
    linarith

/-- Witness for C9 with tol_obs = 0 and monitored heights 0.03 / 0.10. -/
theorem checkCollision_floor_scenario_inst :
    (0 : ℝ) ≤ 0 ∧ (0 : ℝ) < 2 / 100 ∧
      ¬ checkCollision (some [floorObs]) true 0 eeProbe true ∧
        checkCollision (some [floorObs]) true 0 eeProbe false := by
  have h := checkCollision_floor_scenario eeProbe 0 (le_refl 0) (by norm_num)
    true false (by norm_num [eeProbe]) (by norm_num [eeProbe])
  exact ⟨le_refl 0, by norm_num, h.1, h.2⟩

/-- C10: getGuess returns fresh copies — mutating both returned arrays
leaves the internal guesses unchanged, a subsequent getGuess still
reads the original values into its fresh cells, and the returned copies
hold the guess contents of the moment of the call. -/
theorem getGuess_independent_copies {α : Type} (c : GuessRef) (h : Heap α)
    (hwf : c.wf h) (v1 v2 : α) :
    (mutatedHeap c h v1 v2).mem c.xg = h.mem c.xg ∧
    (mutatedHeap c h v1 v2).mem c.ug = h.mem c.ug ∧
    (getGuess c (mutatedHeap c h v1 v2)).2.mem
        ((getGuess c (mutatedHeap c h v1 v2)).1.1) = h.mem c.xg ∧
    (getGuess c (mutatedHeap c h v1 v2)).2.mem
        ((getGuess c (mutatedHeap c h v1 v2)).1.2) = h.mem c.ug ∧
    (getGuess c h).2.mem ((getGuess c h).1.1) = h.mem c.xg ∧
    (getGuess c h).2.mem ((getGuess c h).1.2) = h.mem c.ug := by
  obtain ⟨hx, hu⟩ := hwf
  simp only [mutatedHeap, getGuess, Heap.alloc, Heap.write, Function.update_apply]
  refine ⟨?_, ?_, ?_, ?_, ?_, ?_⟩ <;> (split_ifs <;> first | rfl | (exfalso; omega))

/-- Witness for C10 on a concrete two-cell heap. -/
theorem getGuess_independent_copies_inst :
    refsW.wf heapW ∧
      (mutatedHeap refsW heapW 7 8).mem refsW.xg = heapW.mem refsW.xg ∧
      (mutatedHeap refsW heapW 7 8).mem refsW.ug = heapW.mem refsW.ug := by
  have hwf : refsW.wf heapW := ⟨by decide, by decide⟩
  have h := getGuess_independent_copies refsW heapW hwf 7 8
  exact ⟨hwf, h.1, h.2.1⟩

end SafeMpc
